import Mathlib

/-!
Verification of the username-uniqueness reservation protocol of the
pulsechat repository (src/js/username.js together with the shared
utilities in utils.js).

The embedding models the Firestore state visible to that module as two
key-value relations: `usernames` (handle -> reservation document) and
`users` (uid -> user document).  A Firestore `runTransaction` body only
buffers writes (`tx.set` / `tx.delete` / `tx.update`) which the backend
commits atomically; the embedding mirrors this by letting each
transaction body return the buffered write list, which `runTx` applies
all-or-nothing.  A fault-injection parameter models a storage failure
raised at any point before the commit completes.  Timestamps are
integers in milliseconds (`serverTimestamp()` becomes the `now`
argument).
-/

namespace PulseChat

/-- Milliseconds per day, the `86400000` constant of utils.js. -/
def msPerDay : Int := 86400000

/-- A document of the `usernames/{handle}` collection:
`{ uid, reservedAt: serverTimestamp() }`. -/
structure Reservation where
  uid : String
  reservedAt : Int
deriving DecidableEq, Repr

/-- The fields of a `users/{uid}` document that username.js reads or
writes: `username` and `lastUsernameChange`.  Both are absent until
first written. -/
structure UserDoc where
  username : Option String
  lastUsernameChange : Option Int
deriving DecidableEq, Repr

/-- The database state seen by username.js: the `usernames` collection
keyed by handle and the `users` collection keyed by uid. -/
structure DB where
  usernames : String → Option Reservation
  users : String → Option UserDoc

/-- Errors a reservation call can surface: `USERNAME_TAKEN`,
`COOLDOWN:n` (with `n` the days left), or an underlying storage
failure. -/
inductive UErr where
  | usernameTaken
  | cooldown (daysLeft : Nat)
  | storageFailure
deriving DecidableEq, Repr

/-- utils.js `cooldownDaysLeft(ts, cooldownDays)`:
`0` when `ts` is absent; otherwise the ceiling of the remaining
milliseconds divided by a day, clamped at `0`.  `now` stands for
`Date.now()`. -/
def cooldownDaysLeft (ts : Option Int) (cooldownDays : Int) (now : Int) : Nat :=
  match ts with
  | none => 0
  | some t =>
    if cooldownDays * msPerDay - (now - t) > 0 then
      ((cooldownDays * msPerDay - (now - t) + msPerDay - 1) / msPerDay).toNat
    else 0

/-- The character class `[a-z0-9_]` of the validation regex. -/
def isHandleChar (c : Char) : Bool :=
  (decide ('a' ≤ c) && decide (c ≤ 'z')) || (decide ('0' ≤ c) && decide (c ≤ '9')) || c == '_'

/-- `u.startsWith('_')`: the first character is an underscore. -/
def startsWithUnderscore (u : String) : Bool :=
  match u.data with
  | c :: _ => c == '_'
  | [] => false

/-- `u.endsWith('_')`: the last character is an underscore. -/
def endsWithUnderscore (u : String) : Bool :=
  match u.data.getLast? with
  | some c => c == '_'
  | none => false

/-- `/^[a-z0-9_]+$/.test(u)`: the string is non-empty and every
character is in the class. -/
def matchesHandleRegex (u : String) : Bool :=
  (u != "") && u.data.all isHandleChar

/-- Result shape of utils.js `validateUsername`:
`{ valid: boolean, error?: string }`. -/
structure ValidationResult where
  valid : Bool
  error : Option String
deriving DecidableEq, Repr

/-- utils.js `validateUsername(username)`: 3-20 chars, lowercase
letters, digits, underscores, no leading or trailing underscore.
The JS falsy test `!username` is, for a string argument, the test for
the empty string. -/
def validateUsername (username : String) : ValidationResult :=
  if username = "" then ⟨false, some "Username is required."⟩
  else if username.length < 3 then ⟨false, some "Must be at least 3 characters."⟩
  else if username.length > 20 then ⟨false, some "Must be 20 characters or fewer."⟩
  else if !(matchesHandleRegex username) then
    ⟨false, some "Only lowercase letters, numbers and underscores."⟩
  else if startsWithUnderscore username || endsWithUnderscore username then
    ⟨false, some "Cannot start or end with underscore."⟩
  else ⟨true, none⟩

/-- A write buffered by a transaction body: `tx.set` on a `usernames`
document, `tx.delete` on a `usernames` document, or `tx.update` on a
`users` document.  The update carries the new `username` field and,
when present, the new `lastUsernameChange` stamp (`reserveUsername`
stamps it, `reserveInitialUsername` does not). -/
inductive WriteOp where
  | setUsername (handle : String) (r : Reservation)
  | deleteUsername (handle : String)
  | updateUser (uid : String) (username : String) (stamp : Option Int)
deriving DecidableEq, Repr

/-- Field-merge semantics of the buffered `tx.update`: a present stamp
replaces `lastUsernameChange`, an absent one keeps the stored value. -/
def stampOrKeep (stamp : Option Int) (u : UserDoc) : Option Int :=
  match stamp with
  | some t => some t
  | none => u.lastUsernameChange

/-- Point update of the `usernames` collection. -/
def setReservation (db : DB) (h : String) (r : Option Reservation) : DB :=
  { db with usernames := fun k => if k = h then r else db.usernames k }

/-- Apply one buffered write.  Firestore `update()` fails when the
target document does not exist, which aborts the whole transaction;
this is the `none` case. -/
def applyWrite (db : DB) : WriteOp → Option DB
  | .setUsername h r => some (setReservation db h (some r))
  | .deleteUsername h => some (setReservation db h none)
  | .updateUser uid uname stamp =>
    match db.users uid with
    | none => none
    | some u =>
      some { db with
        users := fun k =>
          if k = uid then
            some { username := some uname, lastUsernameChange := stampOrKeep stamp u }
          else db.users k }

/-- Apply a buffered write list in order; fail if any write fails. -/
def applyWrites (db : DB) : List WriteOp → Option DB
  | [] => some db
  | w :: ws =>
    match applyWrite db w with
    | some db1 => applyWrites db1 ws
    | none => none

/-- The snapshot check `newSnap.exists() && newSnap.data().uid !== uid`. -/
def takenByOther (db : DB) (uid handle : String) : Bool :=
  match db.usernames handle with
  | some r => r.uid != uid
  | none => false

/-- Commit a buffered write list atomically: on any failure the
original state is kept (full rollback). -/
def commitTx (db : DB) (ws : List WriteOp) : Except UErr Unit × DB :=
  match applyWrites db ws with
  | some db1 => (.ok (), db1)
  | none => (.error .storageFailure, db)

/-- `runTransaction` semantics: a body error surfaces with no effect;
otherwise the buffered writes commit atomically.  `faultAfter = some k`
injects a storage failure after `k` of the buffered writes, i.e. at any
point strictly before the commit completes — the transaction then
aborts with rollback. -/
def runTx (db : DB) (body : Except UErr (List WriteOp)) (faultAfter : Option Nat) :
    Except UErr Unit × DB :=
  match body with
  | .error e => (.error e, db)
  | .ok ws =>
    match faultAfter with
    | some k => if k < ws.length then (.error .storageFailure, db) else commitTx db ws
    | none => commitTx db ws

/-- The transaction body of `reserveUsername(uid, newUsername,
oldUsername)`: check `USERNAME_TAKEN`, check the cooldown against
`users/{uid}.lastUsernameChange` (only when the user document exists),
then buffer: delete the old reservation (only when `oldUsername` is
truthy — non-empty — and differs from `newUsername`), set the new
reservation, and update the user document with the new username and a
fresh `lastUsernameChange` stamp. -/
def reserveUsernameTx (db : DB) (uid newUsername : String) (oldUsername : Option String)
    (now : Int) : Except UErr (List WriteOp) :=
  if takenByOther db uid newUsername then
    .error .usernameTaken
  else
    match db.users uid with
    | some u =>
      if cooldownDaysLeft u.lastUsernameChange 7 now > 0 then
        .error (.cooldown (cooldownDaysLeft u.lastUsernameChange 7 now))
      else
        .ok (reserveWrites uid newUsername oldUsername now)
    | none => .ok (reserveWrites uid newUsername oldUsername now)
where
  /-- The buffered writes of a passing `reserveUsername` body. -/
  reserveWrites (uid newUsername : String) (oldUsername : Option String) (now : Int) :
      List WriteOp :=
    (match oldUsername with
     | some old => if old ≠ "" ∧ old ≠ newUsername then [.deleteUsername old] else []
     | none => []) ++
    [.setUsername newUsername ⟨uid, now⟩, .updateUser uid newUsername (some now)]

/-- `reserveUsername` under `runTransaction`, with fault injection. -/
def reserveUsernameRun (db : DB) (uid newUsername : String) (oldUsername : Option String)
    (now : Int) (faultAfter : Option Nat) : Except UErr Unit × DB :=
  runTx db (reserveUsernameTx db uid newUsername oldUsername now) faultAfter

/-- `reserveUsername` as exported (no injected fault). -/
def reserveUsername (db : DB) (uid newUsername : String) (oldUsername : Option String)
    (now : Int) : Except UErr Unit × DB :=
  reserveUsernameRun db uid newUsername oldUsername now none

/-- The transaction body of `reserveInitialUsername(uid, username)`:
only the `USERNAME_TAKEN` check, then set the reservation and update
the user document with `{ username }` alone — no cooldown check and no
`lastUsernameChange` stamp, and the handle is stored verbatim. -/
def reserveInitialUsernameTx (db : DB) (uid username : String) (now : Int) :
    Except UErr (List WriteOp) :=
  if takenByOther db uid username then
    .error .usernameTaken
  else
    .ok [.setUsername username ⟨uid, now⟩, .updateUser uid username none]

/-- `reserveInitialUsername` under `runTransaction`, with fault
injection. -/
def reserveInitialUsernameRun (db : DB) (uid username : String) (now : Int)
    (faultAfter : Option Nat) : Except UErr Unit × DB :=
  runTx db (reserveInitialUsernameTx db uid username now) faultAfter

/-- `reserveInitialUsername` as exported (no injected fault). -/
def reserveInitialUsername (db : DB) (uid username : String) (now : Int) :
    Except UErr Unit × DB :=
  reserveInitialUsernameRun db uid username now none

/-- `isUsernameAvailable(username, uid)`: a single `getDoc`, no write. -/
def isUsernameAvailable (db : DB) (username uid : String) : Bool :=
  match db.usernames username with
  | none => true
  | some r => r.uid == uid

/-- JS `String.prototype.toLowerCase()` on the ASCII handle strings of
this repository: per-character lowercasing. -/
def toLowerCase (s : String) : String :=
  ⟨s.data.map Char.toLower⟩

/-- `lookupUidByUsername(username)`: point read at the lowercased
handle. -/
def lookupUidByUsername (db : DB) (username : String) : Option String :=
  match db.usernames (toLowerCase username) with
  | some r => some r.uid
  | none => none

/-- The account that owns the reservation for a handle, if any. -/
def ownerOf (db : DB) (h : String) : Option String :=
  match db.usernames h with
  | some r => some r.uid
  | none => none

/-! ## Concrete states used to instantiate the theorems -/

/-- A state where `alice` is reserved by `u1` and no user document
exists. -/
def dbTaken : DB :=
  { usernames := fun h => if h = "alice" then some ⟨"u1", 0⟩ else none,
    users := fun _ => none }

/-- A state where `u1` owns `alice` and has never changed username. -/
def dbCool : DB :=
  { usernames := fun h => if h = "alice" then some ⟨"u1", 0⟩ else none,
    users := fun k => if k = "u1" then some ⟨some "alice", none⟩ else none }

/-- A state where `alice` is reserved by `u2` while `u1` is inside its
cooldown window (last change at time 0). -/
def dbTakenCool : DB :=
  { usernames := fun h => if h = "alice" then some ⟨"u2", 0⟩ else none,
    users := fun k => if k = "u1" then some ⟨some "bob", some 0⟩ else none }

/-- A state where `u1` owns `old1` (last change at time 0) and an
unrelated reservation `bob` belongs to `u9`. -/
def dbChange : DB :=
  { usernames := fun h =>
      if h = "old1" then some ⟨"u1", 3⟩
      else if h = "bob" then some ⟨"u9", 5⟩
      else none,
    users := fun k => if k = "u1" then some ⟨some "old1", some 0⟩ else none }

/-- A state where the empty-string handle is reserved by `u2` and `u1`
exists with no cooldown stamp. -/
def dbEmptyOld : DB :=
  { usernames := fun h => if h = "" then some ⟨"u2", 0⟩ else none,
    users := fun k => if k = "u1" then some ⟨some "", none⟩ else none }

/-- A fresh-signup state: no reservations, `u1` created by `upsertUser`
with no `lastUsernameChange` stamp. -/
def dbSignup : DB :=
  { usernames := fun _ => none,
    users := fun k => if k = "u1" then some ⟨some "alice", none⟩ else none }

/-- A state with no reservations and account `A` present. -/
def dbCase : DB :=
  { usernames := fun _ => none,
    users := fun k => if k = "A" then some ⟨none, none⟩ else none }

/-! ## Helper lemmas -/

theorem takenByOther_true (db : DB) (uid handle : String) (r : Reservation)
    (hres : db.usernames handle = some r) (hne : r.uid ≠ uid) :
    takenByOther db uid handle = true := by
  unfold takenByOther
  rw [hres]
  exact bne_iff_ne.mpr hne

theorem applyWrites_cons_delete (db : DB) (old : String) (ws : List WriteOp) :
    applyWrites db (.deleteUsername old :: ws) = applyWrites (setReservation db old none) ws :=
  rfl

theorem applyWrites_set_update_isSome (db : DB) (uid newU : String) (r : Reservation)
    (stamp : Option Int) (u : UserDoc) (hu : db.users uid = some u) :
    applyWrites db [.setUsername newU r, .updateUser uid newU stamp] =
      some { usernames := fun k => if k = newU then some r else db.usernames k,
             users := fun k =>
               if k = uid then some ⟨some newU, stampOrKeep stamp u⟩
               else db.users k } := by
  dsimp only [applyWrites, applyWrite, setReservation]
  rw [hu]

theorem applyWrites_set_update_elim (db db' : DB) (uid newU : String) (r : Reservation)
    (stamp : Option Int)
    (h : applyWrites db [.setUsername newU r, .updateUser uid newU stamp] = some db') :
    ∃ u, db.users uid = some u ∧
      db' = { usernames := fun k => if k = newU then some r else db.usernames k,
              users := fun k =>
                if k = uid then some ⟨some newU, stampOrKeep stamp u⟩
                else db.users k } := by
  cases hu : db.users uid with
  | none =>
    have hnone : applyWrites db [.setUsername newU r, .updateUser uid newU stamp] = none := by
      dsimp only [applyWrites, applyWrite, setReservation]
      rw [hu]
    rw [hnone] at h
    exact Option.noConfusion h
  | some u =>
    refine ⟨u, rfl, ?_⟩
    rw [applyWrites_set_update_isSome db uid newU r stamp u hu] at h
    exact (Option.some.inj h).symm

theorem commitTx_fst_error_snd (db : DB) (ws : List WriteOp) (e : UErr)
    (h : (commitTx db ws).1 = .error e) : (commitTx db ws).2 = db := by
  unfold commitTx at h ⊢
  cases hap : applyWrites db ws with
  | some db1 => rw [hap] at h; simp at h
  | none => rfl

theorem runTx_fst_error_snd (db : DB) (body : Except UErr (List WriteOp)) (f : Option Nat)
    (e : UErr) (h : (runTx db body f).1 = .error e) : (runTx db body f).2 = db := by
  unfold runTx at h ⊢
  cases body with
  | error e1 => rfl
  | ok ws =>
    cases f with
    | none => exact commitTx_fst_error_snd db ws e h
    | some k =>
      dsimp only at h ⊢
      by_cases hk : k < ws.length
      · rw [if_pos hk]
      · rw [if_neg hk] at h ⊢
        exact commitTx_fst_error_snd db ws e h

theorem runTx_ok_elim (db db' : DB) (body : Except UErr (List WriteOp)) (f : Option Nat)
    (h : runTx db body f = (.ok (), db')) :
    ∃ ws, body = .ok ws ∧ applyWrites db ws = some db' := by
  unfold runTx at h
  cases body with
  | error e1 => exact absurd (congrArg Prod.fst h) (by simp)
  | ok ws =>
    refine ⟨ws, rfl, ?_⟩
    dsimp only at h
    have hc : commitTx db ws = (.ok (), db') := by
      cases f with
      | none => exact h
      | some k =>
        dsimp only at h
        by_cases hk : k < ws.length
        · rw [if_pos hk] at h
          exact absurd (congrArg Prod.fst h) (by simp)
        · rwa [if_neg hk] at h
    unfold commitTx at hc
    cases hap : applyWrites db ws with
    | some db1 =>
      rw [hap] at hc
      dsimp only at hc
      exact congrArg some (congrArg Prod.snd hc)
    | none =>
      rw [hap] at hc
      dsimp only at hc
      exact absurd (congrArg Prod.fst hc) (by simp)

theorem cooldownDaysLeft_eq_zero (t now : Int) (h : now - t = 7 * msPerDay) :
    cooldownDaysLeft (some t) 7 now = 0 := by
  show (if 7 * msPerDay - (now - t) > 0 then
          ((7 * msPerDay - (now - t) + msPerDay - 1) / msPerDay).toNat
        else 0) = 0
  have h0 : 7 * msPerDay - (now - t) = 0 := by rw [h]; ring
  rw [h0]
  norm_num

theorem cooldownDaysLeft_eq_one (t now : Int) (h : now - t = 7 * msPerDay - 1000) :
    cooldownDaysLeft (some t) 7 now = 1 := by
  show (if 7 * msPerDay - (now - t) > 0 then
          ((7 * msPerDay - (now - t) + msPerDay - 1) / msPerDay).toNat
        else 0) = 1
  have h0 : 7 * msPerDay - (now - t) = 1000 := by rw [h]; ring
  rw [h0]
  decide

theorem applyWrites_reserveWrites (db : DB) (uid newU : String) (oldU : Option String)
    (now : Int) (u : UserDoc) (hu : db.users uid = some u) :
    ∃ db', applyWrites db (reserveUsernameTx.reserveWrites uid newU oldU now) = some db' := by
  unfold reserveUsernameTx.reserveWrites
  cases oldU with
  | none =>
    exact ⟨_, applyWrites_set_update_isSome db uid newU ⟨uid, now⟩ (some now) u hu⟩
  | some old =>
    dsimp only
    split_ifs with hc
    · have h2 := applyWrites_set_update_isSome (setReservation db old none) uid newU
        ⟨uid, now⟩ (some now) u hu
      rw [← applyWrites_cons_delete] at h2
      exact ⟨_, h2⟩
    · exact ⟨_, applyWrites_set_update_isSome db uid newU ⟨uid, now⟩ (some now) u hu⟩

theorem reserveUsernameTx_pass (db : DB) (uid newU : String) (oldU : Option String)
    (now : Int) (u : UserDoc) (hu : db.users uid = some u)
    (htaken : takenByOther db uid newU = false)
    (hcool : cooldownDaysLeft u.lastUsernameChange 7 now = 0) :
    reserveUsernameTx db uid newU oldU now =
      .ok (reserveUsernameTx.reserveWrites uid newU oldU now) := by
  unfold reserveUsernameTx
  rw [htaken, if_neg Bool.false_ne_true, hu]
  dsimp only
  rw [hcool]
  norm_num

theorem reserveUsername_ok (db : DB) (uid newU : String) (oldU : Option String) (now : Int)
    (u : UserDoc) (hu : db.users uid = some u)
    (htaken : takenByOther db uid newU = false)
    (hcool : cooldownDaysLeft u.lastUsernameChange 7 now = 0) :
    (reserveUsername db uid newU oldU now).1 = .ok () := by
  obtain ⟨db', hap⟩ := applyWrites_reserveWrites db uid newU oldU now u hu
  unfold reserveUsername reserveUsernameRun runTx
  rw [reserveUsernameTx_pass db uid newU oldU now u hu htaken hcool]
  dsimp only
  unfold commitTx
  rw [hap]

theorem reserveInitialUsername_ok (db : DB) (uid handle : String) (now : Int) (u : UserDoc)
    (hu : db.users uid = some u) (htaken : takenByOther db uid handle = false) :
    reserveInitialUsername db uid handle now =
      (.ok (), { usernames := fun k => if k = handle then some ⟨uid, now⟩ else db.usernames k,
                 users := fun k =>
                   if k = uid then some ⟨some handle, u.lastUsernameChange⟩
                   else db.users k }) := by
  unfold reserveInitialUsername reserveInitialUsernameRun runTx reserveInitialUsernameTx
  rw [htaken, if_neg Bool.false_ne_true]
  dsimp only
  unfold commitTx
  rw [applyWrites_set_update_isSome db uid handle ⟨uid, now⟩ none u hu]
  rfl

theorem reserveUsernameRun_ok_state (db db' : DB) (uid newU : String) (oldU : Option String)
    (now : Int) (f : Option Nat)
    (h : reserveUsernameRun db uid newU oldU now f = (.ok (), db')) :
    ∃ u, db.users uid = some u ∧
      (∀ k, db'.users k = if k = uid then some ⟨some newU, some now⟩ else db.users k) ∧
      (∀ k, db'.usernames k =
        if k = newU then some ⟨uid, now⟩
        else
          match oldU with
          | some old =>
            if old ≠ "" ∧ old ≠ newU then (if k = old then none else db.usernames k)
            else db.usernames k
          | none => db.usernames k) := by
  obtain ⟨ws, hbody, hap⟩ := runTx_ok_elim db db' _ f h
  have hws : ws = reserveUsernameTx.reserveWrites uid newU oldU now := by
    unfold reserveUsernameTx at hbody
    split at hbody
    · exact absurd hbody (by simp)
    · split at hbody
      · split at hbody
        · exact absurd hbody (by simp)
        · exact (Except.ok.inj hbody).symm
      · exact (Except.ok.inj hbody).symm
  subst hws
  unfold reserveUsernameTx.reserveWrites at hap
  cases oldU with
  | none =>
    obtain ⟨u, hu, hdb⟩ := applyWrites_set_update_elim db db' uid newU ⟨uid, now⟩ (some now) hap
    subst hdb
    exact ⟨u, hu, fun k => rfl, fun k => rfl⟩
  | some old =>
    dsimp only at hap ⊢
    by_cases hc : old ≠ "" ∧ old ≠ newU
    · rw [if_pos hc] at hap
      rw [show ([WriteOp.deleteUsername old] ++
          [WriteOp.setUsername newU ⟨uid, now⟩, WriteOp.updateUser uid newU (some now)]) =
          (WriteOp.deleteUsername old ::
            [WriteOp.setUsername newU ⟨uid, now⟩, WriteOp.updateUser uid newU (some now)])
          from rfl, applyWrites_cons_delete] at hap
      obtain ⟨u, hu, hdb⟩ := applyWrites_set_update_elim _ db' uid newU ⟨uid, now⟩ (some now) hap
      subst hdb
      refine ⟨u, hu, fun k => rfl, fun k => ?_⟩
      rw [if_pos hc]
      all_goals rfl
    · rw [if_neg hc] at hap
      obtain ⟨u, hu, hdb⟩ := applyWrites_set_update_elim db db' uid newU ⟨uid, now⟩ (some now) hap
      subst hdb
      refine ⟨u, hu, fun k => rfl, fun k => ?_⟩
      rw [if_neg hc]

/-! ## Claims -/

/-- C8: `isUsernameAvailable(handle, account_id)` returns true iff no
reservation exists for the handle or the existing reservation is owned
by `account_id`.  It is a pure read: its type `DB → String → String →
Bool` returns no updated state, so it performs no writes. -/
theorem isUsernameAvailable_spec (db : DB) (username uid : String) :
    isUsernameAvailable db username uid = true ↔
      (db.usernames username = none ∨
        ∃ r, db.usernames username = some r ∧ r.uid = uid) := by
  unfold isUsernameAvailable
  cases h : db.usernames username with
  | none => simp
  | some r => simp [h]

/-- Witness for C8 at a concrete state: `alice`, reserved by `u1`, is
available to `u1`; the unreserved `bob` is available to `u2`. -/
theorem isUsernameAvailable_spec_witness :
    isUsernameAvailable dbTaken "alice" "u1" = true ∧
    isUsernameAvailable dbTaken "bob" "u2" = true :=
  ⟨(isUsernameAvailable_spec dbTaken "alice" "u1").mpr (Or.inr ⟨⟨"u1", 0⟩, rfl, rfl⟩),
   (isUsernameAvailable_spec dbTaken "bob" "u2").mpr (Or.inl rfl)⟩

/-- C9: `validateUsername(u)` accepts exactly the strings of length 3
to 20 made of lowercase letters, digits and underscores that neither
start nor end with an underscore; on every rejected string it returns
an error message.  The function reads no state (type `String →
ValidationResult`), so validation happens without storage access. -/
theorem validateUsername_spec (u : String) :
    ((validateUsername u).valid = true ↔
      (3 ≤ u.length ∧ u.length ≤ 20 ∧ u.data.all isHandleChar = true ∧
        startsWithUnderscore u = false ∧ endsWithUnderscore u = false)) ∧
    ((validateUsername u).valid = false → ((validateUsername u).error).isSome = true) := by
  unfold validateUsername matchesHandleRegex
  split_ifs with h1 h2 h3 h4 h5
  · refine ⟨⟨fun hv => hv.elim, fun hr => ?_⟩, fun _ => rfl⟩
    subst h1
    exact absurd hr.1 (by decide)
  · refine ⟨⟨fun hv => hv.elim, fun hr => ?_⟩, fun _ => rfl⟩
    exact absurd hr.1 (by omega)
  · refine ⟨⟨fun hv => hv.elim, fun hr => ?_⟩, fun _ => rfl⟩
    exact absurd hr.2.1 (by omega)
  · refine ⟨⟨fun hv => hv.elim, fun hr => ?_⟩, fun _ => rfl⟩
    rw [Bool.not_eq_true', Bool.and_eq_false_iff] at h4
    rcases h4 with h4 | h4
    · rw [bne_eq_false_iff_eq] at h4
      exact h1 h4
    · rw [hr.2.2.1] at h4
      exact Bool.noConfusion h4
  · refine ⟨⟨fun hv => hv.elim, fun hr => ?_⟩, fun _ => rfl⟩
    rw [hr.2.2.2.1, hr.2.2.2.2] at h5
    exact Bool.noConfusion h5
  · simp only [Bool.not_eq_true, Bool.not_eq_false', Bool.and_eq_true, bne_iff_ne] at h4
    simp only [Bool.not_eq_true, Bool.or_eq_false_iff] at h5
    exact ⟨⟨fun _ => ⟨by omega, by omega, h4.2, h5.1, h5.2⟩, fun _ => rfl⟩, fun hv => hv.elim⟩

/-- Witness for C9: the well-formed handle `alice` is accepted, and the
too-short `ab` is rejected with an error message present. -/
theorem validateUsername_spec_witness :
    (validateUsername "alice").valid = true ∧
    ((validateUsername "ab").error).isSome = true :=
  ⟨(validateUsername_spec "alice").1.mpr (by decide),
   (validateUsername_spec "ab").2 (by decide)⟩

/-- C1: in any state the reservation map binds each handle to at most
one owning account, and both `reserveUsername` and
`reserveInitialUsername`, taken as one atomic transaction, fail with
`USERNAME_TAKEN` — leaving the state untouched, never overwriting —
whenever the requested handle's reservation exists and is owned by a
different account. -/
theorem reserve_unique_ownership :
    (∀ (db : DB) (h a b : String), ownerOf db h = some a → ownerOf db h = some b → a = b) ∧
    (∀ (db : DB) (uid newU : String) (oldU : Option String) (now : Int) (f : Option Nat)
       (r : Reservation), db.usernames newU = some r → r.uid ≠ uid →
       reserveUsernameRun db uid newU oldU now f = (.error .usernameTaken, db)) ∧
    (∀ (db : DB) (uid handle : String) (now : Int) (f : Option Nat) (r : Reservation),
       db.usernames handle = some r → r.uid ≠ uid →
       reserveInitialUsernameRun db uid handle now f = (.error .usernameTaken, db)) := by
  refine ⟨?_, ?_, ?_⟩
  · intro db h a b ha hb
    rw [ha] at hb
    exact Option.some.inj hb
  · intro db uid newU oldU now f r hres hne
    unfold reserveUsernameRun runTx reserveUsernameTx
    rw [takenByOther_true db uid newU r hres hne]
    rfl
  · intro db uid handle now f r hres hne
    unfold reserveInitialUsernameRun runTx reserveInitialUsernameTx
    rw [takenByOther_true db uid handle r hres hne]
    rfl

/-- Witness for C1 at a concrete state: `alice` is owned by `u1`, so a
change and an initial claim by `u2` both fail with `USERNAME_TAKEN` and
leave the state unchanged. -/
theorem reserve_unique_ownership_witness :
    reserveUsernameRun dbTaken "u2" "alice" none 0 none = (.error .usernameTaken, dbTaken) ∧
    reserveInitialUsernameRun dbTaken "u2" "alice" 0 none = (.error .usernameTaken, dbTaken) :=
  ⟨reserve_unique_ownership.2.1 dbTaken "u2" "alice" none 0 none ⟨"u1", 0⟩ rfl (by decide),
   reserve_unique_ownership.2.2 dbTaken "u2" "alice" 0 none ⟨"u1", 0⟩ rfl (by decide)⟩

/-- C2: whenever `reserveUsername` surfaces an error — `USERNAME_TAKEN`,
a cooldown, or a storage failure injected at any point inside the
transaction (in particular between the buffered delete of the old
reservation and the write of the new one) — the whole state, reservation
store and user records alike, is exactly the pre-call state. -/
theorem reserveUsername_error_atomic :
    ∀ (db : DB) (uid newU : String) (oldU : Option String) (now : Int) (f : Option Nat)
      (e : UErr), (reserveUsernameRun db uid newU oldU now f).1 = .error e →
      (reserveUsernameRun db uid newU oldU now f).2 = db := by
  intro db uid newU oldU now f e h
  exact runTx_fst_error_snd db _ f e h

/-- Witness for C2: a storage failure injected right between the
buffered delete of `alice` and the write of `alice2` leaves the state
unchanged. -/
theorem reserveUsername_error_atomic_witness :
    (reserveUsernameRun dbCool "u1" "alice2" (some "alice") 0 (some 1)).1 =
      .error .storageFailure ∧
    (reserveUsernameRun dbCool "u1" "alice2" (some "alice") 0 (some 1)).2 = dbCool :=
  ⟨rfl,
   reserveUsername_error_atomic dbCool "u1" "alice2" (some "alice") 0 (some 1)
     .storageFailure rfl⟩

/-- C3: for an account whose stored `lastUsernameChange` is `t`, a
change attempted exactly at `t + 7` days passes the cooldown
(`cooldownDaysLeft` is 0) and succeeds, while one attempted at
`t + 6` days `23:59:59` (one second short) fails with `COOLDOWN:1`
(`cooldownDaysLeft` is 1). -/
theorem reserveUsername_cooldown_boundary :
    ∀ (db : DB) (uid newU : String) (oldU : Option String) (t : Int) (u : UserDoc),
      db.users uid = some u → u.lastUsernameChange = some t →
      takenByOther db uid newU = false →
      cooldownDaysLeft (some t) 7 (t + 7 * msPerDay) = 0 ∧
      (reserveUsername db uid newU oldU (t + 7 * msPerDay)).1 = .ok () ∧
      cooldownDaysLeft (some t) 7 (t + 7 * msPerDay - 1000) = 1 ∧
      (reserveUsername db uid newU oldU (t + 7 * msPerDay - 1000)).1 =
        .error (.cooldown 1) := by
  intro db uid newU oldU t u hu hlast htaken
  have hz := cooldownDaysLeft_eq_zero t (t + 7 * msPerDay) (by ring)
  have ho := cooldownDaysLeft_eq_one t (t + 7 * msPerDay - 1000) (by ring)
  refine ⟨hz, ?_, ho, ?_⟩
  · refine reserveUsername_ok db uid newU oldU (t + 7 * msPerDay) u hu htaken ?_
    rw [hlast]
    exact hz
  · unfold reserveUsername reserveUsernameRun runTx reserveUsernameTx
    rw [htaken, if_neg Bool.false_ne_true, hu]
    dsimp only
    rw [hlast, ho]
    norm_num

/-- Witness for C3 at a concrete state: `u1` owns `old1` with
`lastUsernameChange = 0`; changing to `alice2` at exactly 7 days
succeeds, at 7 days minus one second fails with `COOLDOWN:1`. -/
theorem reserveUsername_cooldown_boundary_witness :
    cooldownDaysLeft (some 0) 7 (0 + 7 * msPerDay) = 0 ∧
    (reserveUsername dbChange "u1" "alice2" (some "old1") (0 + 7 * msPerDay)).1 = .ok () ∧
    cooldownDaysLeft (some 0) 7 (0 + 7 * msPerDay - 1000) = 1 ∧
    (reserveUsername dbChange "u1" "alice2" (some "old1") (0 + 7 * msPerDay - 1000)).1 =
      .error (.cooldown 1) :=
  reserveUsername_cooldown_boundary dbChange "u1" "alice2" (some "old1") 0
    ⟨some "old1", some 0⟩ rfl rfl rfl

/-- C7: when the reservation for the requested new handle is owned by a
different account, `reserveUsername` fails with `USERNAME_TAKEN`
whatever the caller's cooldown state: the taken check runs before the
cooldown check. -/
theorem username_taken_precedes_cooldown :
    ∀ (db : DB) (uid newU : String) (oldU : Option String) (now : Int) (f : Option Nat)
      (r : Reservation), db.usernames newU = some r → r.uid ≠ uid →
      (reserveUsernameRun db uid newU oldU now f).1 = .error .usernameTaken := by
  intro db uid newU oldU now f r hres hne
  unfold reserveUsernameRun runTx reserveUsernameTx
  rw [takenByOther_true db uid newU r hres hne]
  rfl

/-- Witness for C7 at a state where `u1` is also inside its cooldown
window (`cooldownDaysLeft` would be 7): the error is still
`USERNAME_TAKEN`. -/
theorem username_taken_precedes_cooldown_witness :
    cooldownDaysLeft (some 0) 7 0 = 7 ∧
    (reserveUsernameRun dbTakenCool "u1" "alice" (some "bob") 0 none).1 =
      .error .usernameTaken :=
  ⟨by decide,
   username_taken_precedes_cooldown dbTakenCool "u1" "alice" (some "bob") 0 none
     ⟨"u2", 0⟩ rfl (by decide)⟩

/-- Counterexample to C4 as stated: immediately after a successful
`reserveInitialUsername`, the follow-up `reserveUsername` does NOT fail
with `COOLDOWN:7` — it succeeds, because `reserveInitialUsername`
leaves no `lastUsernameChange` stamp on the user document. -/
theorem signup_cooldown_counterexample :
    (reserveInitialUsername dbSignup "u1" "alice" 0).1 = .ok () ∧
    (reserveUsername (reserveInitialUsername dbSignup "u1" "alice" 0).2 "u1" "alice2"
        (some "alice") 0).1 = .ok () ∧
    (reserveUsername (reserveInitialUsername dbSignup "u1" "alice" 0).2 "u1" "alice2"
        (some "alice") 0).1 ≠ .error (.cooldown 7) := by
  refine ⟨rfl, rfl, ?_⟩
  intro hc
  rw [show (reserveUsername (reserveInitialUsername dbSignup "u1" "alice" 0).2 "u1" "alice2"
      (some "alice") 0).1 = Except.ok () from rfl] at hc
  exact Except.noConfusion hc

/-- C4 (amended): `reserveInitialUsername` updates only the `username`
field and never stamps `lastUsernameChange`, so a freshly signed-up
account has no cooldown: an immediately following `reserveUsername` to
a fresh handle succeeds instead of failing with `COOLDOWN:7`. -/
theorem signup_no_cooldown_stamp :
    ∀ (db : DB) (uid n1 n2 : String) (now1 now2 : Int) (u : UserDoc),
      db.users uid = some u → u.lastUsernameChange = none →
      takenByOther db uid n1 = false →
      n2 ≠ n1 → takenByOther db uid n2 = false →
      (reserveInitialUsername db uid n1 now1).1 = .ok () ∧
      (reserveInitialUsername db uid n1 now1).2.users uid = some ⟨some n1, none⟩ ∧
      (reserveUsername (reserveInitialUsername db uid n1 now1).2 uid n2 (some n1) now2).1 =
        .ok () := by
  intro db uid n1 n2 now1 now2 u hu hlast htaken1 hne htaken2
  have h1 := reserveInitialUsername_ok db uid n1 now1 u hu htaken1
  rw [h1]
  refine ⟨rfl, ?_, ?_⟩
  · dsimp only
    rw [if_pos rfl, hlast]
  · refine reserveUsername_ok _ uid n2 (some n1) now2 ⟨some n1, u.lastUsernameChange⟩
      ?_ ?_ ?_
    · show (if uid = uid then some (⟨some n1, u.lastUsernameChange⟩ : UserDoc)
        else db.users uid) = some ⟨some n1, u.lastUsernameChange⟩
      rw [if_pos rfl]
    · show (match (if n2 = n1 then some (⟨uid, now1⟩ : Reservation) else db.usernames n2) with
        | some r => r.uid != uid
        | none => false) = false
      rw [if_neg hne]
      exact htaken2
    · show cooldownDaysLeft u.lastUsernameChange 7 now2 = 0
      rw [hlast]
      rfl

/-- Witness for the amended C4 at the concrete fresh-signup state. -/
theorem signup_no_cooldown_stamp_witness :
    (reserveInitialUsername dbSignup "u1" "alice" 0).1 = .ok () ∧
    (reserveInitialUsername dbSignup "u1" "alice" 0).2.users "u1" =
      some ⟨some "alice", none⟩ ∧
    (reserveUsername (reserveInitialUsername dbSignup "u1" "alice" 0).2 "u1" "alice2"
        (some "alice") 0).1 = .ok () :=
  signup_no_cooldown_stamp dbSignup "u1" "alice" "alice2" 0 0 ⟨some "alice", none⟩
    rfl rfl rfl (by decide) rfl

/-- Counterexample to C5 as stated: `reserveInitialUsername(A, "Alice")`
stores the key verbatim as `Alice`, while `lookupUidByUsername`
lowercases its argument, so the lookup of `alice` finds nothing. -/
theorem case_normalization_counterexample :
    (reserveInitialUsername dbCase "A" "Alice" 0).1 = .ok () ∧
    lookupUidByUsername (reserveInitialUsername dbCase "A" "Alice" 0).2 "alice" = none ∧
    lookupUidByUsername (reserveInitialUsername dbCase "A" "Alice" 0).2 "alice" ≠
      some "A" := by
  refine ⟨rfl, rfl, ?_⟩
  intro hc
  rw [show lookupUidByUsername (reserveInitialUsername dbCase "A" "Alice" 0).2 "alice" =
      (none : Option String) from rfl] at hc
  exact Option.noConfusion hc

/-- C5 (amended): the reservation key is stored verbatim and lookup
lowercases its argument, so the round trip holds exactly when the
reserved handle is already lowercase (which every call site of the
repository guarantees): after `reserveInitialUsername(A, h)`, any
spelling `s` with `s.toLower = h` resolves to `A`. -/
theorem reserve_initial_lookup_lower :
    ∀ (db : DB) (a handle s : String) (now : Int) (u : UserDoc),
      db.users a = some u →
      takenByOther db a handle = false →
      toLowerCase s = handle →
      (reserveInitialUsername db a handle now).1 = .ok () ∧
      lookupUidByUsername (reserveInitialUsername db a handle now).2 s = some a := by
  intro db a handle s now u hu htaken hs
  rw [reserveInitialUsername_ok db a handle now u hu htaken]
  refine ⟨rfl, ?_⟩
  unfold lookupUidByUsername
  dsimp only
  rw [hs, if_pos rfl]

/-- Witness for the amended C5: reserve `alice`, look up `Alice`. -/
theorem reserve_initial_lookup_lower_witness :
    (reserveInitialUsername dbCase "A" "alice" 0).1 = .ok () ∧
    lookupUidByUsername (reserveInitialUsername dbCase "A" "alice" 0).2 "Alice" =
      some "A" :=
  reserve_initial_lookup_lower dbCase "A" "alice" "Alice" 0 ⟨none, none⟩ rfl rfl (by decide)

/-- Counterexample to C6 as stated: with `oldUsername = ""` — distinct
from the new handle but falsy in JS — the call succeeds and yet the
reservation stored under the old handle is not deleted. -/
theorem reserveUsername_empty_old_counterexample :
    ("" : String) ≠ "alice" ∧
    (reserveUsername dbEmptyOld "u1" "alice" (some "") 0).1 = .ok () ∧
    (reserveUsername dbEmptyOld "u1" "alice" (some "") 0).2.usernames "" =
      some ⟨"u2", 0⟩ :=
  ⟨by decide, rfl, rfl⟩

/-- C6 (amended): when `reserveUsername` succeeds with an `oldUsername`
that is non-empty (JS-truthy) and distinct from the new handle, the
resulting state has no reservation for the old handle, binds the new
handle to the caller with the call timestamp, and sets the user
document's handle to the new one with a fresh `lastUsernameChange`. -/
theorem reserveUsername_success_postcondition :
    ∀ (db db' : DB) (uid newU old : String) (now : Int) (f : Option Nat),
      old ≠ "" → old ≠ newU →
      reserveUsernameRun db uid newU (some old) now f = (.ok (), db') →
      db'.usernames old = none ∧
      db'.usernames newU = some ⟨uid, now⟩ ∧
      db'.users uid = some ⟨some newU, some now⟩ := by
  intro db db' uid newU old now f hold hne h
  obtain ⟨u, hu, husers, hnames⟩ :=
    reserveUsernameRun_ok_state db db' uid newU (some old) now f h
  refine ⟨?_, ?_, ?_⟩
  · rw [hnames old, if_neg hne]
    dsimp only
    rw [if_pos ⟨hold, hne⟩, if_pos rfl]
  · rw [hnames newU, if_pos rfl]
  · rw [husers uid, if_pos rfl]

/-- Witness for the amended C6 at the concrete state `dbChange`, with
the call made exactly at the end of the 7-day cooldown. -/
theorem reserveUsername_success_postcondition_witness :
    (reserveUsername dbChange "u1" "alice2" (some "old1") 604800000).2.usernames "old1" =
      none ∧
    (reserveUsername dbChange "u1" "alice2" (some "old1") 604800000).2.usernames "alice2" =
      some ⟨"u1", 604800000⟩ ∧
    (reserveUsername dbChange "u1" "alice2" (some "old1") 604800000).2.users "u1" =
      some ⟨some "alice2", some 604800000⟩ :=
  reserveUsername_success_postcondition dbChange _ "u1" "alice2" "old1" 604800000 none
    (by decide) (by decide) rfl

/-- C10: a successful `reserveUsername` touches only the reservation
entry of the new handle and — only when `oldUsername` is passed and
differs from the new one — the entry of the old handle; every other
handle's reservation is unchanged, and when `oldUsername` is absent or
equal to the new handle no reservation is deleted at all, so a previous
reservation is released only when the caller passes it explicitly. -/
theorem reserveUsername_frame :
    ∀ (db db' : DB) (uid newU : String) (oldU : Option String) (now : Int) (f : Option Nat)
      (k : String),
      reserveUsernameRun db uid newU oldU now f = (.ok (), db') →
      k ≠ newU →
      ((∀ old, oldU = some old → k ≠ old) → db'.usernames k = db.usernames k) ∧
      ((oldU = none ∨ oldU = some newU) → db'.usernames k = db.usernames k) := by
  intro db db' uid newU oldU now f k h hk
  obtain ⟨u, hu, husers, hnames⟩ := reserveUsernameRun_ok_state db db' uid newU oldU now f h
  constructor
  · intro hold
    rw [hnames k, if_neg hk]
    cases oldU with
    | none => rfl
    | some old =>
      dsimp only
      by_cases hc : old ≠ "" ∧ old ≠ newU
      · rw [if_pos hc, if_neg (hold old rfl)]
      · rw [if_neg hc]
  · intro hcase
    rw [hnames k, if_neg hk]
    rcases hcase with h0 | h0
    · subst h0
      rfl
    · subst h0
      dsimp only
      rw [if_neg (fun hc => hc.2 rfl)]

/-- Witness for C10: after `u1` changes `old1` to `alice2`, the
unrelated reservation `bob` is exactly as before. -/
theorem reserveUsername_frame_witness :
    (reserveUsername dbChange "u1" "alice2" (some "old1") 604800000).2.usernames "bob" =
      dbChange.usernames "bob" :=
  (reserveUsername_frame dbChange _ "u1" "alice2" (some "old1") 604800000 none "bob" rfl
      (by decide)).1
    (by
      intro old hh
      injection hh with hh2
      rw [← hh2]
      decide)

end PulseChat
